import Mathlib

/-!
Verification development for the `yt-answer-comments` repository.

The Go sources are shallowly embedded: Go strings become `List Char`,
machine integers become `Int`/`Nat`, fallible calls become `Except`/`Option`,
the SQLite table becomes a list of rows, and the external collaborators
(the Gemini LLM, the YouTube API, the terminal UI) become oracle inputs to
the embedded control flow.  Each definition mirrors one Go function and is
annotated with its source location.
-/

namespace YtAnswer

/-- Character class used by `strings.TrimSpace` (ASCII part of
`unicode.IsSpace`: space, tab, newline, vertical tab, form feed,
carriage return).  The repository only ever trims ASCII output. -/
def isSpaceGo (c : Char) : Bool :=
  c = ' ' || c = '\t' || c = '\n' || c = '\x0b' || c = '\x0c' || c = '\r'

/-- Go `strings.TrimPrefix(s, pre)`: drops `pre` when it is a prefix,
otherwise returns `s` unchanged. -/
def trimPrefixGo (s pre : List Char) : List Char :=
  if pre <+: s then s.drop pre.length else s

/-- Go `strings.TrimSuffix(s, suf)`: drops `suf` when it is a suffix,
otherwise returns `s` unchanged. -/
def trimSuffixGo (s suf : List Char) : List Char :=
  if suf <:+ s then s.take (s.length - suf.length) else s

/-- Go `strings.TrimLeft` over the whitespace class. -/
def trimLeftSpaceGo (s : List Char) : List Char := s.dropWhile isSpaceGo

/-- Go `strings.TrimSpace`: removes leading and trailing whitespace. -/
def trimSpaceGo (s : List Char) : List Char :=
  ((trimLeftSpaceGo s).reverse.dropWhile isSpaceGo).reverse

/-- The bare code fence marker. -/
def fenceB : List Char := "```".toList

/-- The language-tagged code fence marker. -/
def fenceJ : List Char := "```json".toList

/-- The fence-stripping sequence of `llm.AnalyzeComment`
(src/internal/llm/llm.go lines 39-42), in source order:
`TrimPrefix "```json"`, `TrimPrefix "```"`, `TrimSuffix "```"`, `TrimSpace`. -/
def cleanResponse (raw : List Char) : List Char :=
  trimSpaceGo (trimSuffixGo (trimPrefixGo (trimPrefixGo raw fenceJ) fenceB) fenceB)

/-- `models.SentimentAnalysis` (src/internal/models/models.go):
the classifier verdict decoded from the LLM response.  Field names and
types follow the Go struct; the JSON tags are `sentimento`, `nota`, `tema`. -/
structure SentimentAnalysis where
  Sentimento : List Char
  Nota : Int
  Tema : List Char
deriving DecidableEq

/-- JSON values, as produced by Go's `encoding/json` scanner.  Numbers are
restricted to integers, which is all the classifier contract uses; a
fractional literal simply fails to scan in this embedding (Go would
instead fail the int conversion — an error either way). -/
inductive Json where
  | null : Json
  | bool (b : Bool) : Json
  | num (n : Int) : Json
  | str (s : List Char) : Json
  | arr (elems : List Json) : Json
  | obj (fields : List (List Char × Json)) : Json

/-- Field lookup of `encoding/json` when decoding into a struct: on
duplicate keys the last occurrence wins.  (Go also matches keys
case-insensitively; the classifier contract fixes lowercase tags, which
this embedding matches exactly.) -/
def lookupField (fields : List (List Char × Json)) (key : List Char) : Option Json :=
  ((fields.filter (fun kv => decide (kv.1 = key))).getLast?).map (fun kv => kv.2)

/-- `encoding/json` semantics for a `string` struct field: absent field or
JSON `null` keeps the zero value, a JSON string is taken verbatim, any
other shape is a type error. -/
def fieldStr (v : Option Json) : Except (List Char) (List Char) :=
  match v with
  | none => .ok []
  | some Json.null => .ok []
  | some (Json.str s) => .ok s
  | some _ => .error "json: cannot unmarshal value into field of type string".toList

/-- `encoding/json` semantics for an `int` struct field: absent field or
JSON `null` keeps the zero value, a JSON number is taken verbatim, any
other shape is a type error. -/
def fieldInt (v : Option Json) : Except (List Char) Int :=
  match v with
  | none => .ok 0
  | some Json.null => .ok 0
  | some (Json.num n) => .ok n
  | some _ => .error "json: cannot unmarshal value into field of type int".toList

/-- `json.Unmarshal` of a scanned JSON value into `models.SentimentAnalysis`:
the top-level value must be an object; each tagged field is decoded by its
JSON type with no range or enumeration validation whatsoever. -/
def unmarshalSentiment (j : Json) : Except (List Char) SentimentAnalysis :=
  match j with
  | Json.obj fields => do
      let sent ← fieldStr (lookupField fields "sentimento".toList)
      let nota ← fieldInt (lookupField fields "nota".toList)
      let tema ← fieldStr (lookupField fields "tema".toList)
      pure { Sentimento := sent, Nota := nota, Tema := tema }
  | _ => .error "json: cannot unmarshal value into Go value of type models.SentimentAnalysis".toList

/-- JSON insignificant whitespace. -/
def jsonWs (c : Char) : Bool := c = ' ' || c = '\t' || c = '\n' || c = '\r'

/-- Skip JSON insignificant whitespace. -/
def jsonSkipWs (s : List Char) : List Char := s.dropWhile jsonWs

/-- Accumulate a run of decimal digits (JSON integer literal body). -/
def parseNatAux : List Char → Nat → Nat × List Char
  | [], acc => (acc, [])
  | c :: rest, acc =>
      if c.isDigit then parseNatAux rest (acc * 10 + (c.toNat - 48))
      else (acc, c :: rest)

/-- Parse a nonempty run of decimal digits. -/
def parseNatGo (s : List Char) : Option (Nat × List Char) :=
  match s with
  | [] => none
  | c :: _ => if c.isDigit then some (parseNatAux s 0) else none

/-- Parse a JSON string body (after the opening quote).  The escapes the
classifier contract can produce are supported; `\u`/`\b`/`\f` are not,
and make the scan fail as a conservative approximation. -/
def parseStr : Nat → List Char → Option (List Char × List Char)
  | 0, _ => none
  | fuel + 1, s =>
    match s with
    | [] => none
    | c :: rest =>
      if c = '"' then some ([], rest)
      else if c = '\\' then
        match rest with
        | [] => none
        | e :: r2 =>
          let esc : Option Char :=
            if e = '"' then some '"'
            else if e = '\\' then some '\\'
            else if e = '/' then some '/'
            else if e = 'n' then some '\n'
            else if e = 't' then some '\t'
            else if e = 'r' then some '\r'
            else none
          match esc with
          | some ch =>
            match parseStr fuel r2 with
            | some (b, r) => some (ch :: b, r)
            | none => none
          | none => none
      else
        match parseStr fuel rest with
        | some (b, r) => some (c :: b, r)
        | none => none

mutual

/-- Scan one JSON value (the recognizer of Go's `encoding/json`),
returning the value and the unconsumed remainder.  Fuel-driven; the
callers supply more fuel than any input can consume. -/
def parseVal : Nat → List Char → Option (Json × List Char)
  | 0, _ => none
  | fuel + 1, s =>
    match jsonSkipWs s with
    | [] => none
    | c :: rest =>
      if c = '"' then
        match parseStr fuel rest with
        | some (b, r) => some (Json.str b, r)
        | none => none
      else if c = '\x7b' then
        match jsonSkipWs rest with
        | '\x7d' :: r => some (Json.obj [], r)
        | _ =>
          match parseMembers fuel rest with
          | some (fs, r) => some (Json.obj fs, r)
          | none => none
      else if c = '[' then
        match jsonSkipWs rest with
        | ']' :: r => some (Json.arr [], r)
        | _ =>
          match parseElems fuel rest with
          | some (es, r) => some (Json.arr es, r)
          | none => none
      else if c = 't' then
        if "rue".toList <+: rest then some (Json.bool true, rest.drop 3) else none
      else if c = 'f' then
        if "alse".toList <+: rest then some (Json.bool false, rest.drop 4) else none
      else if c = 'n' then
        if "ull".toList <+: rest then some (Json.null, rest.drop 3) else none
      else if c = '-' then
        match parseNatGo rest with
        | some (n, r) => some (Json.num (-(n : Int)), r)
        | none => none
      else if c.isDigit then
        match parseNatGo (c :: rest) with
        | some (n, r) => some (Json.num (n : Int), r)
        | none => none
      else none

/-- Scan the members of a JSON object (positioned after the opening brace,
at the first key). -/
def parseMembers : Nat → List Char → Option (List (List Char × Json) × List Char)
  | 0, _ => none
  | fuel + 1, s =>
    match jsonSkipWs s with
    | '"' :: rest =>
      match parseStr fuel rest with
      | some (key, r1) =>
        match jsonSkipWs r1 with
        | ':' :: r2 =>
          match parseVal fuel r2 with
          | some (v, r3) =>
            match jsonSkipWs r3 with
            | ',' :: r4 =>
              match parseMembers fuel r4 with
              | some (tl, r5) => some ((key, v) :: tl, r5)
              | none => none
            | '\x7d' :: r4 => some ([(key, v)], r4)
            | _ => none
          | none => none
        | _ => none
      | none => none
    | _ => none

/-- Scan the elements of a JSON array (positioned after the opening
bracket, at the first element). -/
def parseElems : Nat → List Char → Option (List Json × List Char)
  | 0, _ => none
  | fuel + 1, s =>
    match parseVal fuel s with
    | some (v, r1) =>
      match jsonSkipWs r1 with
      | ',' :: r2 =>
        match parseElems fuel r2 with
        | some (tl, r3) => some (v :: tl, r3)
        | none => none
      | ']' :: r2 => some ([v], r2)
      | _ => none
    | none => none

end

/-- `json.Unmarshal(cleaned, &s)` for `models.SentimentAnalysis`: scan one
top-level value, reject trailing non-whitespace (Go: "invalid character
after top-level value"), then decode the struct fields. -/
def jsonUnmarshalSentiment (s : List Char) : Except (List Char) SentimentAnalysis :=
  match parseVal (2 * s.length + 8) s with
  | none => .error "invalid JSON".toList
  | some (j, rest) =>
      if jsonSkipWs rest = [] then unmarshalSentiment j
      else .error "invalid character after top-level value".toList

/-- The pure decoding core of `llm.AnalyzeComment`
(src/internal/llm/llm.go lines 38-48), applied to the raw LLM response
text after a successful transport call: strip fences, then
`json.Unmarshal`; on decode failure the error retains the raw text
("parsing JSON analysis LLM: %w; raw: %s"). -/
def analyzeDecode (raw : List Char) : Except (List Char) SentimentAnalysis :=
  match jsonUnmarshalSentiment (cleanResponse raw) with
  | .ok s => .ok s
  | .error _ => .error ("parsing JSON analysis LLM; raw: ".toList ++ raw)

/-- The prompt template selected by `llm.SuggestAnswer`
(src/internal/llm/llm.go lines 54-59): the negative template
(`getNegativeAnswerPrompt`, stricter ~20-word ceiling and few-shot
examples) iff `isANegativeComment` is set, else the positive template. -/
inductive PromptKind where
  | positive : PromptKind
  | negative : PromptKind
deriving DecidableEq

/-- Template choice of `llm.SuggestAnswer` as a function of its
`isANegativeComment` argument (src/internal/llm/llm.go lines 54-59). -/
def suggestPromptKind (isANegativeComment : Bool) : PromptKind :=
  if isANegativeComment then PromptKind.negative else PromptKind.positive

/-- Result of `runResponseDecisionScreen` as observed by `main`
(src/cmd/answer-comments/main.go lines 250-259): an error from the TUI
(main then sets `input = "N"`), the operator quitting (Sair button or
Escape; main returns), or a button selection value. -/
inductive ScreenResult where
  | err : ScreenResult
  | exitApp : ScreenResult
  | sel (value : List Char) : ScreenResult
deriving DecidableEq

/-- Terminal handling of one comment by the `switch input` at
src/cmd/answer-comments/main.go lines 268-315 (plus the two early exits
of the processing block). -/
inductive CommentOutcome where
  /-- `os.Exit(code)` — the whole process terminates. -/
  | exitProcess (code : Nat) : CommentOutcome
  /-- the `continue` at line 215: no usable draft, skip with a log. -/
  | skipNoSuggestion : CommentOutcome
  /-- case "S": `yt.PublishComment` with `text`, then `SaveComment` with
  the `userAnswered` flag. -/
  | publish (text : List Char) (userAnswered : Bool) : CommentOutcome
  /-- case "E": the edit screen opens seeded with `initial`; the edited
  text is then published with `userAnswered = true`. -/
  | editFlow (initial : List Char) : CommentOutcome
  /-- `return` from the loop (operator quit). -/
  | quitLoop : CommentOutcome
  /-- `default`: "Resposta não publicada", move to the next comment. -/
  | skipComment : CommentOutcome
deriving DecidableEq

/-- Observable trace of processing one unanswered comment. -/
structure Trace where
  /-- `some flag` iff `llm.SuggestAnswer` was invoked, recording the
  `isANegativeComment` argument that was passed (main.go line 208). -/
  draftCall : Option Bool
  /-- the auto-approve branch at main.go lines 222-228 set `input = "S"`. -/
  autoPublished : Bool
  /-- `runResponseDecisionScreen` was invoked (main.go line 233-250). -/
  promptShown : Bool
  outcome : CommentOutcome
deriving DecidableEq

/-- `shouldSuggestAnswer` (src/cmd/answer-comments/main.go line 189):
`!*manualMode && sentiment.Sentimento != "negativo" && sentiment.Nota >= 3`. -/
def shouldSuggestAnswer (manualMode : Bool) (sentiment : SentimentAnalysis) : Bool :=
  !manualMode && !(decide (sentiment.Sentimento = "negativo".toList)) && decide (3 ≤ sentiment.Nota)

/-- The `switch input` dispatch (main.go lines 268-315).  Case "S"
publishes the (trimmed) `answer` and saves it with `userAnswered=false`;
case "E" opens the editor seeded with `strings.TrimSpace(answer)`;
case "Q" returns; anything else is a skip. -/
def dispatchInput (answer inp : List Char) : CommentOutcome :=
  if inp = "S".toList then CommentOutcome.publish answer false
  else if inp = "E".toList then CommentOutcome.editFlow (trimSpaceGo answer)
  else if inp = "Q".toList then CommentOutcome.quitLoop
  else CommentOutcome.skipComment

/-- Lines 233-266 of main.go for the case `input == ""`: run the decision
screen; on error set `input = "N"`, on operator exit return from the loop;
then, if there is no suggested answer and still no input, force edit
(`input = "E"`); finally dispatch. -/
def decideViaScreen (suggestedAnswer answer : List Char) (screen : ScreenResult)
    (draftCall : Option Bool) : Trace :=
  match screen with
  | ScreenResult.exitApp =>
      { draftCall := draftCall, autoPublished := false, promptShown := true,
        outcome := CommentOutcome.quitLoop }
  | ScreenResult.err =>
      { draftCall := draftCall, autoPublished := false, promptShown := true,
        outcome := dispatchInput answer "N".toList }
  | ScreenResult.sel v =>
      let inp := if suggestedAnswer = [] ∧ v = [] then "E".toList else v
      { draftCall := draftCall, autoPublished := false, promptShown := true,
        outcome := dispatchInput answer inp }

/-- The drafting branch of `main` (src/cmd/answer-comments/main.go
lines 193-230): `negFlag` is the `isANegativeComment` argument passed to
`llm.SuggestAnswer` and `sugRes` that call's result.  An error or empty
suggestion skips the comment (line 215); otherwise the auto-approve check
at line 222 may set `input = "S"` directly, else the decision screen runs. -/
def draftBranch (autoAnswerMode : Bool) (sentiment : SentimentAnalysis) (negFlag : Bool)
    (sugRes : Except (List Char) (List Char)) (screen : ScreenResult) : Trace :=
  match sugRes with
  | Except.error _ =>
      { draftCall := some negFlag, autoPublished := false, promptShown := false,
        outcome := CommentOutcome.skipNoSuggestion }
  | Except.ok suggestedAnswer =>
      if suggestedAnswer = [] then
        { draftCall := some negFlag, autoPublished := false, promptShown := false,
          outcome := CommentOutcome.skipNoSuggestion }
      else
        if suggestedAnswer ≠ [] ∧ sentiment.Sentimento = "positivo".toList
            ∧ 4 ≤ sentiment.Nota ∧ autoAnswerMode = true then
          { draftCall := some negFlag, autoPublished := true, promptShown := false,
            outcome := dispatchInput (trimSpaceGo suggestedAnswer) "S".toList }
        else
          decideViaScreen suggestedAnswer (trimSpaceGo suggestedAnswer) screen (some negFlag)

/-- Processing of one unanswered comment by `main`
(src/cmd/answer-comments/main.go lines 147-315), with the external
collaborators as oracles: `analyze` is the result of `llm.AnalyzeComment`,
`suggest` the result of `llm.SuggestAnswer` as a function of the
`isANegativeComment` argument, `screen` the operator's interaction with
the decision screen.  The grace-delay `time.Sleep` calls in the
auto-approve branch only affect timing and have no state, so they do not
appear. -/
def processComment (manualMode autoAnswerMode : Bool)
    (analyze : Except (List Char) SentimentAnalysis)
    (suggest : Bool → Except (List Char) (List Char))
    (screen : ScreenResult) : Trace :=
  match analyze with
  | Except.error _ =>
      -- main.go lines 148-154: the message says "pulando para o próximo"
      -- (skipping to the next), but `os.Exit(1)` runs before the
      -- unreachable `continue`.
      { draftCall := none, autoPublished := false, promptShown := false,
        outcome := CommentOutcome.exitProcess 1 }
  | Except.ok sentiment =>
      if shouldSuggestAnswer manualMode sentiment = true then
        draftBranch autoAnswerMode sentiment
          (decide (sentiment.Sentimento = "negativo".toList))
          (suggest (decide (sentiment.Sentimento = "negativo".toList))) screen
      else
        decideViaScreen [] [] screen none

/-- The slice of `responseDecisionData` that `runResponseDecisionScreen`
consults to decide which buttons exist (main.go lines 574-584). -/
structure ResponseDecisionData where
  SuggestedAnswer : List Char
  ManualMode : Bool

/-- `allowPublish` (main.go line 574):
`strings.TrimSpace(data.SuggestedAnswer) != "" && !data.ManualMode`. -/
def allowPublish (d : ResponseDecisionData) : Bool :=
  !(decide (trimSpaceGo d.SuggestedAnswer = [])) && !d.ManualMode

/-- The `buttonConfigs` of `runResponseDecisionScreen`
(main.go lines 575-584), as (value, shown) pairs in source order:
Publicar "S" iff `allowPublish`, Editar "E" always, Pular "N" iff not
manual mode, Sair (empty value, triggers exit) always. -/
def buttonConfigs (d : ResponseDecisionData) : List (List Char × Bool) :=
  [("S".toList, allowPublish d), ("E".toList, true),
   ("N".toList, !d.ManualMode), ([], true)]

/-- The selection values the screen can return (shown buttons whose value
is nonempty; the empty-valued Sair button sets `exit` instead of a
selection). -/
def selectableValues (d : ResponseDecisionData) : List (List Char) :=
  ((buttonConfigs d).filter (fun cfg => cfg.2 && !(decide (cfg.1 = [])))).map (fun cfg => cfg.1)

/-- A row of the SQLite `comments` table (database package, `InitDB`
schema with the `theme` column).  Timestamps are abstracted to integers
("timestamp format normalization aside" — the claims never inspect
them beyond ordering). -/
structure DBRow where
  id : List Char
  author : List Char
  commentText : List Char
  sentiment : List Char
  score : Int
  response : List Char
  theme : List Char
  userAnswered : Bool
  createdAt : Int
  respondedAt : Int
  videoId : List Char
deriving DecidableEq

/-- The slice of a `youtube.Comment` that `database.SaveComment` reads.
`publishedAt` is the result of `time.Parse(time.RFC3339, PublishedAt)`
(`none` models a parse failure, which makes the save fail). -/
structure SaveInput where
  id : List Char
  authorDisplayName : List Char
  textOriginal : List Char
  publishedAt : Option Int
  videoId : List Char

/-- The row inserted by `database.SaveComment`'s `INSERT INTO comments`
statement: column values in the order they are bound. -/
def savedRow (c : SaveInput) (sentiment : List Char) (score : Int) (theme : List Char)
    (response : List Char) (userAnswered : Bool) (createdAt now : Int) : DBRow :=
  { id := c.id, author := c.authorDisplayName, commentText := c.textOriginal,
    sentiment := sentiment, score := score, response := response, theme := theme,
    userAnswered := userAnswered, createdAt := createdAt, respondedAt := now,
    videoId := c.videoId }

/-- `database.SaveComment` (database package): parse the publish
timestamp, then `INSERT INTO comments ...`.  The `id` column is the
primary key, so inserting a duplicate id fails with a constraint
violation; otherwise the row is appended. -/
def saveComment (db : List DBRow) (c : SaveInput) (sentiment : List Char) (score : Int)
    (theme : List Char) (response : List Char) (userAnswered : Bool) (now : Int) :
    Except (List Char) (List DBRow) :=
  match c.publishedAt with
  | none => .error "parsing time: invalid RFC3339".toList
  | some createdAt =>
      if db.any (fun r => decide (r.id = c.id)) then
        .error "UNIQUE constraint failed: comments.id".toList
      else
        .ok (db ++ [savedRow c sentiment score theme response userAnswered createdAt now])

/-- `models.Comment` (src/internal/models/models.go), as returned by
`database.GetLastComments`. -/
structure ModelsComment where
  CommentText : List Char
  Response : List Char
  CreatedAt : Int
deriving DecidableEq

/-- Descending comparison on `created_at` (the SQL `ORDER BY created_at
DESC`). -/
def byCreatedAtDesc (a b : DBRow) : Bool := decide (b.createdAt ≤ a.createdAt)

/-- Descending comparison on `responded_at` (the SQL `ORDER BY
responded_at DESC`). -/
def byRespondedAtDesc (a b : DBRow) : Bool := decide (b.respondedAt ≤ a.respondedAt)

/-- `database.GetLastComments` (database package): rows of the given
author, ordered by `created_at` descending, capped at `limit`, projected
to `models.Comment`. -/
def getLastComments (db : List DBRow) (author : List Char) (lim : Nat) : List ModelsComment :=
  ((((db.filter (fun r => decide (r.author = author))).mergeSort byCreatedAtDesc).take lim).map
    (fun r => { CommentText := r.commentText, Response := r.response,
                CreatedAt := r.createdAt }))

/-- The row filter of `database.GetPreviousAnswersByContext`'s SQL WHERE
clause: `theme = ? AND sentiment = ? AND response != '' AND
user_answered = 1`. -/
def precedentMatches (theme sentiment : List Char) (r : DBRow) : Bool :=
  decide (r.theme = theme) && decide (r.sentiment = sentiment)
    && !(decide (r.response = [])) && r.userAnswered

/-- The row selection of `database.GetPreviousAnswersByContext`
(src/unnamed/part_006 lines 148-179): WHERE filter, `ORDER BY
responded_at DESC`, `LIMIT limit`. -/
def selectPrecedents (db : List DBRow) (theme sentiment : List Char) (lim : Nat) : List DBRow :=
  ((db.filter (precedentMatches theme sentiment)).mergeSort byRespondedAtDesc).take lim

/-- The row formatting of `GetPreviousAnswersByContext`:
`"Pergunta: {comment}\nResposta: {response}\n"`. -/
def formatPrecedent (r : DBRow) : List Char :=
  "Pergunta: ".toList ++ r.commentText ++ "\nResposta: ".toList ++ r.response ++ "\n".toList

/-- `database.GetPreviousAnswersByContext` (src/unnamed/part_006
lines 148-179). -/
def getPreviousAnswersByContext (db : List DBRow) (theme sentiment : List Char)
    (lim : Nat) : List (List Char) :=
  (selectPrecedents db theme sentiment lim).map formatPrecedent

/-- One caption track as listed by the YouTube captions API
(`caption.Snippet` fields consulted by `GetVideoTranscription`). -/
structure Caption where
  id : List Char
  trackKind : List Char
  language : List Char
deriving DecidableEq

/-- The language priority of `GetVideoTranscription`
(src/internal/youtube/youtube.go lines 117-122): 3 for pt/pt-BR,
2 for en, 1 for any other language. -/
def capPriority (c : Caption) : Nat :=
  if c.language = "pt".toList ∨ c.language = "pt-BR".toList then 3
  else if c.language = "en".toList then 2
  else 1

/-- The selection loop of `GetVideoTranscription`
(src/internal/youtube/youtube.go lines 112-128): skip non-ASR tracks,
keep the first track of each strictly higher priority.  The state is
(`captionId`, `captionPriority`), initially `("", 0)`. -/
def selectLoop : List Caption → List Char → Nat → List Char × Nat
  | [], captionId, captionPriority => (captionId, captionPriority)
  | c :: rest, captionId, captionPriority =>
      if ¬ (c.trackKind = "asr".toList) then selectLoop rest captionId captionPriority
      else if captionPriority < capPriority c then selectLoop rest c.id (capPriority c)
      else selectLoop rest captionId captionPriority

/-- The track-selection outcome of `GetVideoTranscription`
(src/internal/youtube/youtube.go lines 109-132): the chosen caption id,
or the recoverable "nenhuma legenda automática encontrada" error when no
automatic track exists. -/
def selectCaption (items : List Caption) : Except (List Char) (List Char) :=
  let st := selectLoop items [] 0
  if st.1 = [] then .error "nenhuma legenda automática encontrada para este vídeo".toList
  else .ok st.1

/-! ## Helper lemmas -/

lemma decideViaScreen_draftCall (sa a : List Char) (screen : ScreenResult) (dc : Option Bool) :
    (decideViaScreen sa a screen dc).draftCall = dc := by
  cases screen <;> rfl

lemma decideViaScreen_autoPublished (sa a : List Char) (screen : ScreenResult) (dc : Option Bool) :
    (decideViaScreen sa a screen dc).autoPublished = false := by
  cases screen <;> rfl

lemma decideViaScreen_promptShown (sa a : List Char) (screen : ScreenResult) (dc : Option Bool) :
    (decideViaScreen sa a screen dc).promptShown = true := by
  cases screen <;> rfl

lemma draftBranch_draftCall (a : Bool) (s : SentimentAnalysis) (nf : Bool)
    (r : Except (List Char) (List Char)) (screen : ScreenResult) :
    (draftBranch a s nf r screen).draftCall = some nf := by
  cases r with
  | error e => rfl
  | ok d =>
      simp only [draftBranch]
      split
      · rfl
      · split
        · rfl
        · exact decideViaScreen_draftCall _ _ _ _

lemma shouldSuggest_iff (m : Bool) (s : SentimentAnalysis) :
    shouldSuggestAnswer m s = true ↔
      (m = false ∧ s.Sentimento ≠ "negativo".toList ∧ 3 ≤ s.Nota) := by
  simp [shouldSuggestAnswer, Bool.and_eq_true, and_assoc]

lemma trimPrefixGo_append (pre s : List Char) : trimPrefixGo (pre ++ s) pre = s := by
  rw [trimPrefixGo, if_pos (List.prefix_append pre s), List.drop_left]

lemma trimPrefixGo_of_not (s pre : List Char) (h : ¬ pre <+: s) : trimPrefixGo s pre = s :=
  if_neg h

lemma trimSuffixGo_append (s suf : List Char) : trimSuffixGo (s ++ suf) suf = s := by
  rw [trimSuffixGo, if_pos (List.suffix_append s suf)]
  have hl : (s ++ suf).length - suf.length = s.length := by
    simp [List.length_append]
  rw [hl, List.take_left]

lemma trimSuffixGo_of_not (s suf : List Char) (h : ¬ suf <:+ s) : trimSuffixGo s suf = s :=
  if_neg h

lemma byRespondedAtDesc_trans (a b c : DBRow) :
    byRespondedAtDesc a b = true → byRespondedAtDesc b c = true → byRespondedAtDesc a c = true := by
  simp only [byRespondedAtDesc, decide_eq_true_eq]
  omega

lemma byRespondedAtDesc_total (a b : DBRow) :
    (byRespondedAtDesc a b || byRespondedAtDesc b a) = true := by
  simp only [byRespondedAtDesc, Bool.or_eq_true, decide_eq_true_eq]
  omega

/-! ## Claim theorems -/

/-- C1 (amended): in the drafting branch (manual mode off, sentiment not
negative, score at least 3) with a successful draft `d`, the auto-approve
branch fires iff {sentiment positive, score ≥ 4, auto mode set, draft
non-empty}; when it fires the reply is published without the operator
screen (the grace delay affects only timing, which this embedding
abstracts away); for every other such input with a non-empty draft the
operator is prompted; an empty draft is skipped with a log, not
prompted. -/
theorem auto_publish_amended (auto : Bool) (s : SentimentAnalysis) (d : List Char)
    (suggest : Bool → Except (List Char) (List Char)) (screen : ScreenResult)
    (hneg : s.Sentimento ≠ "negativo".toList) (hscore : 3 ≤ s.Nota)
    (hsug : suggest false = Except.ok d) :
    ((processComment false auto (Except.ok s) suggest screen).autoPublished = true
       ↔ (s.Sentimento = "positivo".toList ∧ 4 ≤ s.Nota ∧ auto = true ∧ d ≠ [])) ∧
    ((processComment false auto (Except.ok s) suggest screen).autoPublished = true →
       (processComment false auto (Except.ok s) suggest screen).promptShown = false ∧
       (processComment false auto (Except.ok s) suggest screen).outcome
         = CommentOutcome.publish (trimSpaceGo d) false) ∧
    (d ≠ [] → (processComment false auto (Except.ok s) suggest screen).autoPublished = false →
       (processComment false auto (Except.ok s) suggest screen).promptShown = true) ∧
    (d = [] → (processComment false auto (Except.ok s) suggest screen).outcome
         = CommentOutcome.skipNoSuggestion ∧
       (processComment false auto (Except.ok s) suggest screen).promptShown = false) := by
  have hb : shouldSuggestAnswer false s = true := (shouldSuggest_iff false s).mpr ⟨rfl, hneg, hscore⟩
  have hnf : decide (s.Sentimento = "negativo".toList) = false := decide_eq_false hneg
  have hred : processComment false auto (Except.ok s) suggest screen
      = draftBranch auto s false (Except.ok d) screen := by
    simp only [processComment, if_pos hb, hnf, hsug]
  rw [hred]
  by_cases hd : d = []
  · subst hd
    refine ⟨?_, ?_, ?_, ?_⟩
    · simp only [draftBranch, if_pos rfl]
      simp
    · intro hap
      exact absurd hap (by simp [draftBranch])
    · intro hcon; exact absurd rfl hcon
    · intro _; exact ⟨rfl, rfl⟩
  · by_cases hcond : d ≠ [] ∧ s.Sentimento = "positivo".toList ∧ 4 ≤ s.Nota ∧ auto = true
    · have hbr : draftBranch auto s false (Except.ok d) screen
          = { draftCall := some false, autoPublished := true, promptShown := false,
              outcome := dispatchInput (trimSpaceGo d) "S".toList } := by
        simp only [draftBranch, if_neg hd, if_pos hcond]
      rw [hbr]
      refine ⟨?_, ?_, ?_, ?_⟩
      · simp only [true_iff]
        exact ⟨hcond.2.1, hcond.2.2.1, hcond.2.2.2, hcond.1⟩
      · intro _
        exact ⟨rfl, rfl⟩
      · intro _ hap; exact absurd hap (by simp)
      · intro hdd; exact absurd hdd hd
    · have hbr : draftBranch auto s false (Except.ok d) screen
          = decideViaScreen d (trimSpaceGo d) screen (some false) := by
        simp only [draftBranch, if_neg hd, if_neg hcond]
      rw [hbr]
      refine ⟨?_, ?_, ?_, ?_⟩
      · rw [decideViaScreen_autoPublished]
        simp only [Bool.false_eq_true, false_iff]
        intro hc
        exact hcond ⟨hc.2.2.2, hc.1, hc.2.1, hc.2.2.1⟩
      · intro hap
        rw [decideViaScreen_autoPublished] at hap
        exact absurd hap (by simp)
      · intro _ _
        exact decideViaScreen_promptShown _ _ _ _
      · intro hdd; exact absurd hdd hd

/-- C1 counterexample: a drafting-branch input under auto mode (positive
sentiment, score 5) whose draft is empty falsifies "for every other input
in the drafting branch the operator is prompted instead": the drafter was
invoked (`draftCall = some false`), the auto conjunction fails, yet no
prompt is shown — the comment is skipped. -/
theorem auto_publish_claim_counterexample :
    (processComment false true
        (Except.ok { Sentimento := "positivo".toList, Nota := 5, Tema := "Outro".toList })
        (fun _ => Except.ok []) (ScreenResult.sel "E".toList)).draftCall = some false ∧
    (processComment false true
        (Except.ok { Sentimento := "positivo".toList, Nota := 5, Tema := "Outro".toList })
        (fun _ => Except.ok []) (ScreenResult.sel "E".toList)).promptShown = false ∧
    (processComment false true
        (Except.ok { Sentimento := "positivo".toList, Nota := 5, Tema := "Outro".toList })
        (fun _ => Except.ok []) (ScreenResult.sel "E".toList)).outcome
      = CommentOutcome.skipNoSuggestion :=
  ⟨rfl, rfl, rfl⟩

/-- C1 witness: (positive, score 4, auto mode, non-empty draft) is
published without a prompt. -/
theorem auto_publish_amended_witness :
    (processComment false true
      (Except.ok { Sentimento := "positivo".toList, Nota := 4,
                   Tema := "Saudação/Agradecimento".toList })
      (fun _ => Except.ok "Amém, Deus abençoe!".toList)
      (ScreenResult.sel "E".toList)).promptShown = false ∧
    (processComment false true
      (Except.ok { Sentimento := "positivo".toList, Nota := 4,
                   Tema := "Saudação/Agradecimento".toList })
      (fun _ => Except.ok "Amém, Deus abençoe!".toList)
      (ScreenResult.sel "E".toList)).outcome
      = CommentOutcome.publish (trimSpaceGo "Amém, Deus abençoe!".toList) false :=
  (auto_publish_amended true
    { Sentimento := "positivo".toList, Nota := 4, Tema := "Saudação/Agradecimento".toList }
    "Amém, Deus abençoe!".toList
    (fun _ => Except.ok "Amém, Deus abençoe!".toList) (ScreenResult.sel "E".toList)
    (by decide) (by decide) rfl).2.1 (by decide)

/-- C2: with manual mode set, for any classification and any draft oracle,
no draft is requested, auto-publish never fires, the Publicar ("S") and
Pular ("N") buttons are not offered, and any selection the screen can
return leads to the edit flow (ForceEdit) seeded with an empty draft. -/
theorem manual_mode_force_edit (a : Bool) (s : SentimentAnalysis)
    (suggest : Bool → Except (List Char) (List Char)) (v : List Char)
    (hmem : v ∈ selectableValues { SuggestedAnswer := [], ManualMode := true }) :
    (processComment true a (Except.ok s) suggest (ScreenResult.sel v)).draftCall = none ∧
    (processComment true a (Except.ok s) suggest (ScreenResult.sel v)).autoPublished = false ∧
    "S".toList ∉ selectableValues { SuggestedAnswer := [], ManualMode := true } ∧
    "N".toList ∉ selectableValues { SuggestedAnswer := [], ManualMode := true } ∧
    (processComment true a (Except.ok s) suggest (ScreenResult.sel v)).outcome
      = CommentOutcome.editFlow [] := by
  have hb : ¬ shouldSuggestAnswer true s = true := by simp [shouldSuggestAnswer]
  have hred : processComment true a (Except.ok s) suggest (ScreenResult.sel v)
      = decideViaScreen [] [] (ScreenResult.sel v) none := by
    simp only [processComment, if_neg hb]
  have hv : v = "E".toList := by
    have hval : selectableValues { SuggestedAnswer := [], ManualMode := true }
        = ["E".toList] := by decide
    rw [hval] at hmem
    simpa using hmem
  subst hv
  refine ⟨?_, ?_, by decide, by decide, ?_⟩
  · rw [hred]; rfl
  · rw [hred]; rfl
  · rw [hred]; rfl

/-- C2 witness: score 5, positive sentiment, non-empty draft oracle, manual
mode — the outcome is still the forced edit flow. -/
theorem manual_mode_force_edit_witness :
    (processComment true false
      (Except.ok { Sentimento := "positivo".toList, Nota := 5, Tema := "Outro".toList })
      (fun _ => Except.ok "Deus abençoe!".toList) (ScreenResult.sel "E".toList)).outcome
      = CommentOutcome.editFlow [] :=
  (manual_mode_force_edit false
    { Sentimento := "positivo".toList, Nota := 5, Tema := "Outro".toList }
    (fun _ => Except.ok "Deus abençoe!".toList) "E".toList (by decide)).2.2.2.2

/-- C3: with a successful classification, when manual mode is off the
reply drafter is invoked iff sentiment is not negative and score is at
least 3; with negative sentiment or score below 3 it is never invoked at
all (no call is recorded in the trace), regardless of modes. -/
theorem drafting_gate (m a : Bool) (s : SentimentAnalysis)
    (suggest : Bool → Except (List Char) (List Char)) (screen : ScreenResult) :
    (m = false →
      ((processComment m a (Except.ok s) suggest screen).draftCall ≠ none
        ↔ (s.Sentimento ≠ "negativo".toList ∧ 3 ≤ s.Nota))) ∧
    ((s.Sentimento = "negativo".toList ∨ s.Nota < 3) →
      (processComment m a (Except.ok s) suggest screen).draftCall = none) := by
  by_cases hb : shouldSuggestAnswer m s = true
  · have hb' := (shouldSuggest_iff m s).mp hb
    have hred : (processComment m a (Except.ok s) suggest screen).draftCall
        = some (decide (s.Sentimento = "negativo".toList)) := by
      simp only [processComment, if_pos hb]
      exact draftBranch_draftCall _ _ _ _ _
    refine ⟨fun _ => ?_, fun hneg => ?_⟩
    · simp only [hred]
      simp only [ne_eq, reduceCtorEq, not_false_eq_true, true_iff]
      exact ⟨hb'.2.1, hb'.2.2⟩
    · rcases hneg with hneg | hlt
      · exact absurd hneg hb'.2.1
      · exact absurd hb'.2.2 (by omega)
  · have hred : (processComment m a (Except.ok s) suggest screen).draftCall = none := by
      simp only [processComment, if_neg hb]
      exact decideViaScreen_draftCall _ _ _ _
    refine ⟨fun hm => ?_, fun _ => hred⟩
    simp only [hred, ne_eq, not_true_eq_false, false_iff]
    intro hc
    exact hb ((shouldSuggest_iff m s).mpr ⟨hm, hc.1, hc.2⟩)

/-- C3 witness: negative sentiment with score 5 — the drafter is not
invoked. -/
theorem drafting_gate_witness :
    (processComment false false
      (Except.ok { Sentimento := "negativo".toList, Nota := 5, Tema := "Crítica (Tom)".toList })
      (fun _ => Except.ok "x".toList) (ScreenResult.sel "E".toList)).draftCall = none :=
  (drafting_gate false false
    { Sentimento := "negativo".toList, Nota := 5, Tema := "Crítica (Tom)".toList }
    (fun _ => Except.ok "x".toList) (ScreenResult.sel "E".toList)).2 (Or.inl rfl)

/-- C4 (amended): the classifier decoder rejects structurally non-JSON
responses (retaining the raw text in the error), but performs no range or
enumeration validation: an object whose `nota` is any integer and whose
`sentimento`/`tema` are any strings decodes successfully and the values
are returned verbatim, never clamped; a non-object (e.g. a bare string)
is a decode error. -/
theorem decode_no_validation (st tm : List Char) (n : Int) :
    unmarshalSentiment (Json.obj [("nota".toList, Json.num n),
        ("sentimento".toList, Json.str st), ("tema".toList, Json.str tm)])
      = Except.ok { Sentimento := st, Nota := n, Tema := tm } ∧
    unmarshalSentiment (Json.str st)
      = Except.error "json: cannot unmarshal value into Go value of type models.SentimentAnalysis".toList :=
  ⟨rfl, rfl⟩

/-- C4 counterexample: a response with score 7 and sentiment/topic outside
every enumeration decodes to `ok`, not to a Malformed error. -/
theorem decode_claim_counterexample :
    analyzeDecode "\x7b\"nota\": 7, \"sentimento\": \"banana\", \"tema\": \"xyz\"\x7d".toList
      = Except.ok { Sentimento := "banana".toList, Nota := 7, Tema := "xyz".toList } :=
  rfl

/-- C5: when classification fails, the per-comment handler calls
`os.Exit(1)` — the process terminates instead of skipping to the next
comment (the `continue` after it, and the printed "pulando para o
próximo" message, are unreachable intent).  The second conjunct exhibits
a concrete failing classifier response. -/
theorem classify_failure_exits (m a : Bool) (e : List Char)
    (suggest : Bool → Except (List Char) (List Char)) (screen : ScreenResult) :
    (processComment m a (Except.error e) suggest screen).outcome = CommentOutcome.exitProcess 1 ∧
    analyzeDecode "oops".toList = Except.error "parsing JSON analysis LLM; raw: oops".toList :=
  ⟨rfl, rfl⟩

/-- C6 (amended): the fence stripping of `AnalyzeComment` is exact-match:
for a payload that does not itself start with a backtick or "json" and
does not end with a backtick, wrapping it directly in ```json...``` or
```...``` fences (no whitespace outside the fences; whitespace between
fence and payload is fine, since `TrimSpace` runs last) yields the same
cleaned text as the bare payload; whitespace outside the fences defeats
the stripping. -/
theorem fence_strip_amended (p : List Char)
    (hb1 : ¬ ("`".toList <+: p)) (hj : ¬ ("j".toList <+: p)) (hb2 : ¬ ("`".toList <:+ p)) :
    cleanResponse (fenceJ ++ p ++ fenceB) = cleanResponse p ∧
    cleanResponse (fenceB ++ p ++ fenceB) = cleanResponse p ∧
    cleanResponse p = trimSpaceGo p := by
  cases p with
  | nil => exact ⟨by decide, by decide, by decide⟩
  | cons a as =>
    have ha : ¬ ('`' = a) := fun h => hb1 (List.cons_prefix_cons.mpr ⟨h, List.nil_prefix⟩)
    have hja : ¬ ('j' = a) := fun h => hj (List.cons_prefix_cons.mpr ⟨h, List.nil_prefix⟩)
    have hclean : cleanResponse (a :: as) = trimSpaceGo (a :: as) := by
      have h1 : ¬ (fenceJ <+: a :: as) := by
        intro h
        exact ha (List.cons_prefix_cons.mp h).1
      have h2 : ¬ (fenceB <+: a :: as) := by
        intro h
        exact ha (List.cons_prefix_cons.mp h).1
      have h3 : ¬ (fenceB <:+ a :: as) := by
        intro h
        exact hb2 (List.IsSuffix.trans (by decide) h)
      rw [cleanResponse, trimPrefixGo_of_not _ _ h1, trimPrefixGo_of_not _ _ h2,
        trimSuffixGo_of_not _ _ h3]
    refine ⟨?_, ?_, hclean⟩
    · have s1 : trimPrefixGo (fenceJ ++ (a :: as) ++ fenceB) fenceJ = (a :: as) ++ fenceB := by
        rw [List.append_assoc]
        exact trimPrefixGo_append _ _
      have s2 : ¬ (fenceB <+: (a :: as) ++ fenceB) := by
        intro h
        exact ha (List.cons_prefix_cons.mp h).1
      rw [cleanResponse, s1, trimPrefixGo_of_not _ _ s2, trimSuffixGo_append, hclean]
    · have s1 : ¬ (fenceJ <+: fenceB ++ ((a :: as) ++ fenceB)) := by
        intro h
        have hsplit : fenceJ = fenceB ++ "json".toList := by decide
        rw [hsplit, List.prefix_append_right_inj] at h
        exact hja (List.cons_prefix_cons.mp h).1
      have s2 : trimPrefixGo (fenceB ++ ((a :: as) ++ fenceB)) fenceB = (a :: as) ++ fenceB :=
        trimPrefixGo_append _ _
      rw [cleanResponse, List.append_assoc, trimPrefixGo_of_not _ _ s1, s2,
        trimSuffixGo_append, hclean]

/-- C6 witness: a fence-wrapped JSON payload (fences flush with the text
ends) cleans to the same text as the bare payload. -/
theorem fence_strip_amended_witness :
    cleanResponse ("```json".toList ++ "\n\x7b\"nota\": 5\x7d\n".toList ++ "```".toList)
      = cleanResponse "\n\x7b\"nota\": 5\x7d\n".toList :=
  (fence_strip_amended "\n\x7b\"nota\": 5\x7d\n".toList (by decide) (by decide) (by decide)).1

/-- C6 counterexample: with a newline after the closing fence (the claim's
"possibly surrounded by whitespace or newlines"), the wrapped response
does not decode to the same Classification as the unwrapped payload: the
unwrapped payload decodes, the wrapped form is a decode error. -/
theorem fence_strip_claim_counterexample :
    analyzeDecode "\x7b\"nota\": 5, \"sentimento\": \"positivo\", \"tema\": \"Outro\"\x7d".toList
      = Except.ok { Sentimento := "positivo".toList, Nota := 5, Tema := "Outro".toList } ∧
    analyzeDecode "```json\n\x7b\"nota\": 5, \"sentimento\": \"positivo\", \"tema\": \"Outro\"\x7d\n```\n".toList
      = Except.error ("parsing JSON analysis LLM; raw: ".toList
          ++ "```json\n\x7b\"nota\": 5, \"sentimento\": \"positivo\", \"tema\": \"Outro\"\x7d\n```\n".toList) ∧
    (Except.error ("parsing JSON analysis LLM; raw: ".toList
          ++ "```json\n\x7b\"nota\": 5, \"sentimento\": \"positivo\", \"tema\": \"Outro\"\x7d\n```\n".toList)
      ≠ (Except.ok { Sentimento := "positivo".toList, Nota := 5, Tema := "Outro".toList }
          : Except (List Char) SentimentAnalysis)) :=
  ⟨rfl, rfl, fun h => Except.noConfusion h⟩

/-- C7: for every database state, topic, sentiment and limit, precedent
retrieval selects only rows with `user_answered = 1` and a non-empty
response matching the topic and sentiment, in `responded_at`-descending
order, and returns at most `limit` entries. -/
theorem precedents_spec (db : List DBRow) (theme sentiment : List Char) (lim : Nat) :
    (∀ r ∈ selectPrecedents db theme sentiment lim,
        r.userAnswered = true ∧ r.response ≠ [] ∧ r.theme = theme ∧ r.sentiment = sentiment) ∧
    (selectPrecedents db theme sentiment lim).length ≤ lim ∧
    (selectPrecedents db theme sentiment lim).Pairwise
      (fun a b => b.respondedAt ≤ a.respondedAt) ∧
    (getPreviousAnswersByContext db theme sentiment lim).length ≤ lim := by
  refine ⟨?_, ?_, ?_, ?_⟩
  · intro r hr
    have hr2 : r ∈ (db.filter (precedentMatches theme sentiment)).mergeSort byRespondedAtDesc :=
      List.mem_of_mem_take hr
    have hr3 : r ∈ db.filter (precedentMatches theme sentiment) :=
      List.mem_mergeSort.mp hr2
    have hr4 := (List.mem_filter.mp hr3).2
    simp only [precedentMatches, Bool.and_eq_true, decide_eq_true_eq, Bool.not_eq_true',
      decide_eq_false_iff_not] at hr4
    exact ⟨hr4.2, hr4.1.2, hr4.1.1.1, hr4.1.1.2⟩
  · exact List.length_take_le _ _
  · have hs := List.sorted_mergeSort byRespondedAtDesc_trans byRespondedAtDesc_total
      (db.filter (precedentMatches theme sentiment))
    have hs2 : ((db.filter (precedentMatches theme sentiment)).mergeSort
        byRespondedAtDesc).Pairwise (fun a b => b.respondedAt ≤ a.respondedAt) :=
      hs.imp (by
        intro a b h
        simpa [byRespondedAtDesc] using h)
    exact hs2.sublist (List.take_sublist _ _) |>.imp (fun h => h)
  · rw [getPreviousAnswersByContext, List.length_map]
    exact List.length_take_le _ _

/-- C10: across all oracle inputs, whenever the orchestration loop invokes
the reply drafter, the `isANegativeComment` flag it passes is `false`, so
the negative prompt template is unreachable from the loop. -/
theorem drafter_flag (m a : Bool) (analyze : Except (List Char) SentimentAnalysis)
    (suggest : Bool → Except (List Char) (List Char)) (screen : ScreenResult) (b : Bool) :
    (processComment m a analyze suggest screen).draftCall = some b →
    b = false ∧ suggestPromptKind b = PromptKind.positive := by
  intro h
  cases analyze with
  | error e => exact absurd h (by simp [processComment])
  | ok s =>
    by_cases hb : shouldSuggestAnswer m s = true
    · have hb' := (shouldSuggest_iff m s).mp hb
      have hred : (processComment m a (Except.ok s) suggest screen).draftCall
          = some (decide (s.Sentimento = "negativo".toList)) := by
        simp only [processComment, if_pos hb]
        exact draftBranch_draftCall _ _ _ _ _
      rw [hred] at h
      have hx := Option.some.inj h
      have hbe : b = false := by
        rw [← hx]
        exact decide_eq_false hb'.2.1
      exact ⟨hbe, by rw [hbe]; rfl⟩
    · have hred : (processComment m a (Except.ok s) suggest screen).draftCall = none := by
        simp only [processComment, if_neg hb]
        exact decideViaScreen_draftCall _ _ _ _
      rw [hred] at h
      exact absurd h (by simp)

/-- C10 witness: a run that does invoke the drafter passes the flag
`false`, selecting the positive template. -/
theorem drafter_flag_witness :
    false = false ∧ suggestPromptKind false = PromptKind.positive :=
  drafter_flag false false
    (Except.ok { Sentimento := "positivo".toList, Nota := 5, Tema := "Outro".toList })
    (fun _ => Except.ok "ok".toList) (ScreenResult.sel "E".toList) false (by decide)



/-- C7 witness: a single matching human-answered row is returned and its
`user_answered` flag is true. -/
theorem precedents_spec_witness :
    ({ id := "c1".toList, author := "Ana".toList, commentText := "Amém".toList,
       sentiment := "positivo".toList, score := 5, response := "Deus abençoe".toList,
       theme := "Saudação/Agradecimento".toList, userAnswered := true,
       createdAt := 10, respondedAt := 20, videoId := "v1".toList } : DBRow).userAnswered = true :=
  ((precedents_spec
      [{ id := "c1".toList, author := "Ana".toList, commentText := "Amém".toList,
         sentiment := "positivo".toList, score := 5, response := "Deus abençoe".toList,
         theme := "Saudação/Agradecimento".toList, userAnswered := true,
         createdAt := 10, respondedAt := 20, videoId := "v1".toList }]
      "Saudação/Agradecimento".toList "positivo".toList 5).1 _
    (by simp [selectPrecedents, precedentMatches, List.mergeSort_singleton])).1

/-- C9: a record written by the save path and re-read through the
author-history path (with a limit at least the author's row count) yields
an entry with the same comment text and the same reply text. -/
theorem save_roundtrip (db : List DBRow) (c : SaveInput) (sent : List Char) (score : Int)
    (theme resp : List Char) (ua : Bool) (now : Int) (db' : List DBRow)
    (hsave : saveComment db c sent score theme resp ua now = Except.ok db')
    (lim : Nat)
    (hlim : (db'.filter (fun r => decide (r.author = c.authorDisplayName))).length ≤ lim) :
    ∃ e ∈ getLastComments db' c.authorDisplayName lim,
      e.CommentText = c.textOriginal ∧ e.Response = resp := by
  rcases hpub : c.publishedAt with _ | t
  · simp only [saveComment, hpub] at hsave
    exact absurd hsave (by simp)
  · simp only [saveComment, hpub] at hsave
    by_cases hdup : db.any (fun r => decide (r.id = c.id)) = true
    · rw [if_pos hdup] at hsave
      exact absurd hsave (by simp)
    · rw [if_neg hdup] at hsave
      have hdb' : db' = db ++ [savedRow c sent score theme resp ua t now] :=
        (Except.ok.inj hsave).symm
      have hmem : savedRow c sent score theme resp ua t now ∈ db' := by
        rw [hdb']
        exact List.mem_append.mpr (Or.inr (List.mem_singleton.mpr rfl))
      have hmemf : savedRow c sent score theme resp ua t now
          ∈ db'.filter (fun r => decide (r.author = c.authorDisplayName)) :=
        List.mem_filter.mpr ⟨hmem, by simp [savedRow]⟩
      have hmems : savedRow c sent score theme resp ua t now ∈ (db'.filter
          (fun r => decide (r.author = c.authorDisplayName))).mergeSort byCreatedAtDesc :=
        List.mem_mergeSort.mpr hmemf
      have htake : ((db'.filter
          (fun r => decide (r.author = c.authorDisplayName))).mergeSort byCreatedAtDesc).take lim
          = (db'.filter (fun r => decide (r.author = c.authorDisplayName))).mergeSort
              byCreatedAtDesc := by
        apply List.take_of_length_le
        rw [List.length_mergeSort]
        exact hlim
      refine ⟨{ CommentText := c.textOriginal, Response := resp, CreatedAt := t }, ?_, rfl, rfl⟩
      rw [getLastComments, htake]
      exact List.mem_map.mpr ⟨savedRow c sent score theme resp ua t now, hmems, rfl⟩

/-- C9 witness: a concrete save into an empty store round-trips. -/
theorem save_roundtrip_witness :
    ∃ e ∈ getLastComments
        [savedRow
          { id := "c9".toList, authorDisplayName := "Bea".toList, textOriginal := "Oi".toList,
            publishedAt := some 100, videoId := "v".toList }
          "positivo".toList 5 "Outro".toList "Olá".toList true 100 200] "Bea".toList 1,
      e.CommentText = "Oi".toList ∧ e.Response = "Olá".toList :=
  save_roundtrip []
    { id := "c9".toList, authorDisplayName := "Bea".toList, textOriginal := "Oi".toList,
      publishedAt := some 100, videoId := "v".toList }
    "positivo".toList 5 "Outro".toList "Olá".toList true 200 _ rfl 1
    (by simp [savedRow])




lemma capPriority_pos (c : Caption) : 1 ≤ capPriority c := by
  rw [capPriority]
  split_ifs <;> omega

lemma capPriority_le_three (c : Caption) : capPriority c ≤ 3 := by
  rw [capPriority]
  split_ifs <;> omega

lemma capPriority_eq_three (c : Caption) :
    capPriority c = 3 ↔ (c.language = "pt".toList ∨ c.language = "pt-BR".toList) := by
  rw [capPriority]
  split_ifs with h1 h2 <;> simp_all

lemma capPriority_eq_two (c : Caption) :
    capPriority c = 2 ↔ (¬ (c.language = "pt".toList ∨ c.language = "pt-BR".toList)
      ∧ c.language = "en".toList) := by
  rw [capPriority]
  split_ifs with h1 h2 <;> simp_all

lemma selectLoop_spec (items : List Caption) : ∀ (i : List Char) (pr : Nat),
    (selectLoop items i pr = (i, pr) ∧
      ∀ c ∈ items, c.trackKind = "asr".toList → capPriority c ≤ pr) ∨
    (∃ c ∈ items, c.trackKind = "asr".toList ∧
      selectLoop items i pr = (c.id, capPriority c) ∧ pr < capPriority c ∧
      ∀ c' ∈ items, c'.trackKind = "asr".toList → capPriority c' ≤ capPriority c) := by
  induction items with
  | nil =>
      intro i pr
      left
      exact ⟨rfl, by simp⟩
  | cons c rest ih =>
      intro i pr
      by_cases hasr : c.trackKind = "asr".toList
      · by_cases hpr : pr < capPriority c
        · have hsl : selectLoop (c :: rest) i pr = selectLoop rest c.id (capPriority c) := by
            simp only [selectLoop]
            rw [if_neg (not_not_intro hasr), if_pos hpr]
          rcases ih c.id (capPriority c) with ⟨heq, hall⟩ | ⟨c₂, hmem, hasr₂, heq₂, hlt₂, hall₂⟩
          · right
            refine ⟨c, List.mem_cons_self c rest, hasr, hsl.trans heq, hpr, ?_⟩
            intro c' hc' ha'
            rcases List.mem_cons.mp hc' with h | h
            · subst h; exact le_refl _
            · exact hall c' h ha'
          · right
            refine ⟨c₂, List.mem_cons_of_mem _ hmem, hasr₂, hsl.trans heq₂,
              lt_trans hpr hlt₂, ?_⟩
            intro c' hc' ha'
            rcases List.mem_cons.mp hc' with h | h
            · subst h; exact le_of_lt hlt₂
            · exact hall₂ c' h ha'
        · have hsl : selectLoop (c :: rest) i pr = selectLoop rest i pr := by
            simp only [selectLoop]
            rw [if_neg (not_not_intro hasr), if_neg hpr]
          rcases ih i pr with ⟨heq, hall⟩ | ⟨c₂, hmem, hasr₂, heq₂, hlt₂, hall₂⟩
          · left
            refine ⟨hsl.trans heq, ?_⟩
            intro c' hc' ha'
            rcases List.mem_cons.mp hc' with h | h
            · subst h; omega
            · exact hall c' h ha'
          · right
            refine ⟨c₂, List.mem_cons_of_mem _ hmem, hasr₂, hsl.trans heq₂, hlt₂, ?_⟩
            intro c' hc' ha'
            rcases List.mem_cons.mp hc' with h | h
            · subst h; omega
            · exact hall₂ c' h ha'
      · have hsl : selectLoop (c :: rest) i pr = selectLoop rest i pr := by
          simp only [selectLoop]
          rw [if_pos hasr]
        rcases ih i pr with ⟨heq, hall⟩ | ⟨c₂, hmem, hasr₂, heq₂, hlt₂, hall₂⟩
        · left
          refine ⟨hsl.trans heq, ?_⟩
          intro c' hc' ha'
          rcases List.mem_cons.mp hc' with h | h
          · subst h; exact absurd ha' hasr
          · exact hall c' h ha'
        · right
          refine ⟨c₂, List.mem_cons_of_mem _ hmem, hasr₂, hsl.trans heq₂, hlt₂, ?_⟩
          intro c' hc' ha'
          rcases List.mem_cons.mp hc' with h | h
          · subst h; exact absurd ha' hasr
          · exact hall₂ c' h ha'



/-- C8: over every list of available caption tracks (whose ASR tracks have
non-empty ids), selection returns the recoverable "no transcript" error
when no ASR track exists; any returned id belongs to an ASR track (non-ASR
tracks are never selected); some ASR track implies a successful selection;
a pt/pt-BR ASR track is preferred when present, otherwise an en ASR track
when present. -/
theorem caption_selection (items : List Caption)
    (hid : ∀ c ∈ items, c.trackKind = "asr".toList → c.id ≠ []) :
    ((∀ c ∈ items, c.trackKind ≠ "asr".toList) →
        selectCaption items
          = Except.error "nenhuma legenda automática encontrada para este vídeo".toList) ∧
    (∀ i, selectCaption items = Except.ok i →
        ∃ c ∈ items, c.trackKind = "asr".toList ∧ c.id = i) ∧
    ((∃ c ∈ items, c.trackKind = "asr".toList) → ∃ i, selectCaption items = Except.ok i) ∧
    ((∃ c ∈ items, c.trackKind = "asr".toList ∧
        (c.language = "pt".toList ∨ c.language = "pt-BR".toList)) →
      ∃ c ∈ items, c.trackKind = "asr".toList ∧
        (c.language = "pt".toList ∨ c.language = "pt-BR".toList) ∧
        selectCaption items = Except.ok c.id) ∧
    ((¬ ∃ c ∈ items, c.trackKind = "asr".toList ∧
        (c.language = "pt".toList ∨ c.language = "pt-BR".toList)) →
      (∃ c ∈ items, c.trackKind = "asr".toList ∧ c.language = "en".toList) →
      ∃ c ∈ items, c.trackKind = "asr".toList ∧ c.language = "en".toList ∧
        selectCaption items = Except.ok c.id) := by
  rcases selectLoop_spec items [] 0 with ⟨heq, hall⟩ | ⟨c, hmem, hasr, heq, _, hall⟩
  · -- no ASR track was taken: the state is unchanged, so no ASR track exists at all
    have hnoasr : ∀ c ∈ items, c.trackKind ≠ "asr".toList := by
      intro c hc hasr
      have h1 := hall c hc hasr
      have h2 := capPriority_pos c
      omega
    have herr : selectCaption items
        = Except.error "nenhuma legenda automática encontrada para este vídeo".toList := by
      simp [selectCaption, heq]
    refine ⟨fun _ => herr, ?_, ?_, ?_, ?_⟩
    · intro i hok
      rw [herr] at hok
      exact absurd hok (by simp)
    · intro ⟨c, hc, hasr⟩
      exact absurd hasr (hnoasr c hc)
    · intro ⟨c, hc, hasr, _⟩
      exact absurd hasr (hnoasr c hc)
    · intro _ ⟨c, hc, hasr, _⟩
      exact absurd hasr (hnoasr c hc)
  · -- an ASR track c of maximal priority was chosen
    have hcid : c.id ≠ [] := hid c hmem hasr
    have hok : selectCaption items = Except.ok c.id := by
      simp only [selectCaption, heq]
      rw [if_neg hcid]
    refine ⟨?_, ?_, fun _ => ⟨c.id, hok⟩, ?_, ?_⟩
    · intro hno
      exact absurd hasr (hno c hmem)
    · intro i hoki
      rw [hok] at hoki
      exact ⟨c, hmem, hasr, Except.ok.inj hoki⟩
    · intro ⟨p, hp, hpasr, hplang⟩
      have h3 : capPriority p = 3 := (capPriority_eq_three p).mpr hplang
      have hle := hall p hp hpasr
      have hc3 : capPriority c = 3 := by
        have := capPriority_le_three c
        omega
      exact ⟨c, hmem, hasr, (capPriority_eq_three c).mp hc3, hok⟩
    · intro hnopt ⟨p, hp, hpasr, hplang⟩
      have hcnotpt : ¬ (c.language = "pt".toList ∨ c.language = "pt-BR".toList) := by
        intro hl
        exact hnopt ⟨c, hmem, hasr, hl⟩
      have hc3 : capPriority c ≠ 3 := fun h => hcnotpt ((capPriority_eq_three c).mp h)
      have hp2 : capPriority p = 2 := by
        apply (capPriority_eq_two p).mpr
        refine ⟨?_, hplang⟩
        intro hl
        exact hnopt ⟨p, hp, hpasr, hl⟩
      have hle := hall p hp hpasr
      have hc2 : capPriority c = 2 := by
        have h1 := capPriority_le_three c
        omega
      exact ⟨c, hmem, hasr, ((capPriority_eq_two c).mp hc2).2, hok⟩

/-- C8 witness: with ASR tracks {en, other} and no primary-language track,
the en track is selected. -/
theorem caption_selection_witness :
    ∃ c ∈ [({ id := "iden".toList, trackKind := "asr".toList, language := "en".toList } : Caption),
           { id := "idx".toList, trackKind := "asr".toList, language := "xx".toList }],
      c.trackKind = "asr".toList ∧ c.language = "en".toList ∧
      selectCaption [({ id := "iden".toList, trackKind := "asr".toList,
                        language := "en".toList } : Caption),
                     { id := "idx".toList, trackKind := "asr".toList,
                       language := "xx".toList }] = Except.ok c.id :=
  (caption_selection
    [{ id := "iden".toList, trackKind := "asr".toList, language := "en".toList },
     { id := "idx".toList, trackKind := "asr".toList, language := "xx".toList }]
    (by decide)).2.2.2.2 (by decide) (by decide)


end YtAnswer
